import Mathlib

/-!
Verification of the bifurcation-analysis core of the Astrocyte-Neuron
interaction repository (`Astrocyte/astrocyte.py`).

The embedding models the numeric pipeline over the rationals `ℚ`:
`np.linspace`, `np.arange`, Python negative-index slicing (`X[t_relax:]`),
`scipy.signal.argrelextrema` with its default comparison window
(`order=1`, `mode='clip'`), and the `Biforcation` sweep loop that
integrates a model per parameter value, slices the trailing relaxation
window of the first state component, extracts strict local maxima and
minima, and accumulates the nested `(I_list, Bif_list)` dataset.
The ODE integrator (`scipy.integrate.odeint`) is an external collaborator
and is passed in as an opaque function argument.
-/

set_option autoImplicit false

namespace Astro

/-- A vector field `model(X, t, I)`, as consumed by `odeint`:
state vector, time, parameter ↦ derivative vector. -/
def Model : Type := List ℚ → ℚ → ℚ → List ℚ

/-- The integrator collaborator (`scipy.integrate.odeint`): given the model,
the initial state, the time grid and the parameter, produce the trajectory
table, one row (state vector) per time-grid point. -/
def Integrator : Type := Model → List ℚ → List ℚ → ℚ → List (List ℚ)

/-- `np.linspace(start, stop, num)`: `num` evenly spaced samples, both
endpoints included when `num ≥ 2`; `[start]` when `num = 1`; `[]` when
`num = 0`. -/
def linspace (start stop : ℚ) (num : ℕ) : List ℚ :=
  if num = 0 then []
  else if num = 1 then [start]
  else (List.range num).map
    (fun (k : ℕ) => start + (stop - start) * (k : ℚ) / ((num : ℚ) - 1))

/-- Number of samples of `np.arange(t0, t_stop, dt)` for `dt ≠ 0`:
`⌈(t_stop - t0)/dt⌉` clamped at zero. `np.arange` with `dt = 0` raises
`ZeroDivisionError` in numpy; this total function renders that grid empty
so that the sweep stays a total function, and the error path is modelled
explicitly by `BiforcationExc`, which no theorem about normal returns at
`dt = 0` may bypass. -/
def arangeLen (t0 t_stop dt : ℚ) : ℕ :=
  if dt = 0 then 0 else (⌈(t_stop - t0) / dt⌉).toNat

/-- `np.arange(t0, t_stop, dt)`: the grid `t0 + k·dt` for `k < arangeLen`. -/
def arange (t0 t_stop dt : ℚ) : List ℚ :=
  (List.range (arangeLen t0 t_stop dt)).map (fun (k : ℕ) => t0 + (k : ℚ) * dt)

/-- Python slice `l[k:]`: for `k < 0` it starts at `max 0 (len l + k)`
(so a window larger than the list clamps to the whole list); for `k ≥ 0`
it drops the first `k` elements. -/
def pySliceFrom {α : Type} (k : ℤ) (l : List α) : List α :=
  if k < 0 then l.drop (((l.length : ℤ) + k).toNat) else l.drop k.toNat

/-- Boolean strict greater-than on `ℚ` (`np.greater`). -/
def gtb (a b : ℚ) : Bool := decide (b < a)

/-- Boolean strict less-than on `ℚ` (`np.less`). -/
def ltb (a b : ℚ) : Bool := decide (a < b)

/-- `scipy.signal.argrelextrema(X, cmp)` with the defaults `order=1`,
`mode='clip'`: the indices `i` of `X` whose value compares true against
both neighbours, neighbour indices being clipped into `[0, len-1]` at the
boundaries (so a boundary index compares against itself and is never
reported under a strict comparison). -/
def argrelextrema (cmp : ℚ → ℚ → Bool) (X : List ℚ) : List ℕ :=
  (List.range X.length).filter (fun i =>
    cmp (X.getD i 0) (X.getD (i - 1) 0) &&
    cmp (X.getD i 0) (X.getD (min (i + 1) (X.length - 1)) 0))

/-- The fixed initial state `X0 = np.array([0.2, 0.2])` of `Biforcation`. -/
def X0 : List ℚ := [1/5, 1/5]

/-- `X = sol[:,0]`: the first state component of the trajectory produced
by the integrator for parameter `i`, across all time steps. -/
def trajectoryFirst (odeint : Integrator) (model : Model) (t : List ℚ) (i : ℚ) : List ℚ :=
  (odeint model X0 t i).map List.headI

/-- `X = X[t_relax:]`: the relaxation window — the trailing samples of the
first state component retained for extremum analysis. -/
def relaxedX (odeint : Integrator) (model : Model) (t : List ℚ) (t_relax : ℤ) (i : ℚ) :
    List ℚ :=
  pySliceFrom t_relax (trajectoryFirst odeint model t i)

/-- `X_max = X[argrelextrema(X, np.greater)].tolist()`: the values of the
strict local maxima of the relaxation window, in time order. -/
def X_max (odeint : Integrator) (model : Model) (t : List ℚ) (t_relax : ℤ) (i : ℚ) :
    List ℚ :=
  let X := relaxedX odeint model t t_relax i
  (argrelextrema gtb X).map (fun j => X.getD j 0)

/-- `X_min = X[argrelextrema(X, np.less)].tolist()`: the values of the
strict local minima of the relaxation window, in time order. -/
def X_min (odeint : Integrator) (model : Model) (t : List ℚ) (t_relax : ℤ) (i : ℚ) :
    List ℚ :=
  let X := relaxedX odeint model t t_relax i
  (argrelextrema ltb X).map (fun j => X.getD j 0)

/-- `Bif_val = X_max + X_min`: maxima values then minima values for one
parameter value. -/
def Bif_val (odeint : Integrator) (model : Model) (t : List ℚ) (t_relax : ℤ) (i : ℚ) :
    List ℚ :=
  X_max odeint model t t_relax i ++ X_min odeint model t t_relax i

/-- `I_x = [i for item in range(len(Bif_val))]`: the swept parameter value
repeated once per extremum of its own iteration. -/
def I_x (odeint : Integrator) (model : Model) (t : List ℚ) (t_relax : ℤ) (i : ℚ) :
    List ℚ :=
  (Bif_val odeint model t t_relax i).map (fun _ => i)

/-- The `Biforcation` sweep engine: iterate over
`np.linspace(par_start, par_stop, par_tot)`, integrate from `X0` over
`np.arange(t0, t_stop, dt)` for each parameter value, slice the trailing
relaxation window of the first component, collect maxima-then-minima, and
append the per-parameter lists `I_x` / `Bif_val` to the accumulating
`(I_list, Bif_list)` pair. -/
def Biforcation (odeint : Integrator) (model : Model)
    (par_start par_stop : ℚ) (par_tot : ℕ) (t0 t_stop dt : ℚ) (t_relax : ℤ) :
    List (List ℚ) × List (List ℚ) :=
  let t := arange t0 t_stop dt
  (linspace par_start par_stop par_tot).foldl
    (fun acc i =>
      (acc.1 ++ [I_x odeint model t t_relax i],
       acc.2 ++ [Bif_val odeint model t t_relax i]))
    ([], [])

/-- `Biforcation` with the failure behaviour of the grid construction made
explicit: `t = np.arange(t0, t_stop, dt)` is evaluated before the sweep
loop, and numpy raises `ZeroDivisionError` there when `dt = 0`, so that
call fails for every `par_tot` with no dataset produced (`none`); for
`dt ≠ 0` the grid construction succeeds and the call returns the dataset
of `Biforcation` normally. -/
def BiforcationExc (odeint : Integrator) (model : Model)
    (par_start par_stop : ℚ) (par_tot : ℕ) (t0 t_stop dt : ℚ) (t_relax : ℤ) :
    Option (List (List ℚ) × List (List ℚ)) :=
  if dt = 0 then none
  else some (Biforcation odeint model par_start par_stop par_tot t0 t_stop dt t_relax)

/-- A trivial model used only to evaluate the engine at concrete inputs. -/
def model0 : Model := fun _ _ _ => []

/-- A concrete deterministic integrator collaborator used for evaluation:
it ignores its inputs and returns a fixed oscillating five-row trajectory
of a one-component state. -/
def odeintOsc : Integrator := fun _ _ _ _ => [[0], [1], [0], [1], [0]]

/-- A deterministic integrator collaborator honouring the one-row-per-grid
point contract: the trajectory repeats the initial state at every time
point. -/
def odeintGrid : Integrator := fun _ s0 t _ => t.map (fun _ => s0)

/-! ### Helper lemmas -/

theorem linspace_length (a b : ℚ) (n : ℕ) : (linspace a b n).length = n := by
  unfold linspace
  rcases n with _ | _ | n <;> simp

theorem getD_map_lt {α β : Type} (f : α → β) (l : List α) (k : ℕ) (d : α) (e : β)
    (hk : k < l.length) : (l.map f).getD k e = f (l.getD k d) := by
  have h := List.getElem?_eq_getElem hk
  rw [List.getD_eq_getElem?_getD, List.getElem?_map, h,
    List.getD_eq_getElem?_getD, h]
  rfl

theorem getD_default_of_le {α : Type} (l : List α) (k : ℕ) (d : α)
    (hk : l.length ≤ k) : l.getD k d = d := by
  rw [List.getD_eq_getElem?_getD, List.getElem?_eq_none hk]
  rfl

theorem foldl_append_pair {α β γ : Type} (f : α → List β) (g : α → List γ)
    (l : List α) (acc : List (List β) × List (List γ)) :
    l.foldl (fun acc i => (acc.1 ++ [f i], acc.2 ++ [g i])) acc
      = (acc.1 ++ l.map f, acc.2 ++ l.map g) := by
  induction l generalizing acc with
  | nil => simp
  | cons x xs ih => simp [ih]

/-- The sweep loop of `Biforcation`, characterised as two independent maps
over the swept parameter values: each iteration contributes a pair that is
a function of its own parameter value only. -/
theorem Biforcation_eq_map (odeint : Integrator) (model : Model)
    (par_start par_stop : ℚ) (par_tot : ℕ) (t0 t_stop dt : ℚ) (t_relax : ℤ) :
    Biforcation odeint model par_start par_stop par_tot t0 t_stop dt t_relax
      = ((linspace par_start par_stop par_tot).map
           (fun i => I_x odeint model (arange t0 t_stop dt) t_relax i),
         (linspace par_start par_stop par_tot).map
           (fun i => Bif_val odeint model (arange t0 t_stop dt) t_relax i)) := by
  unfold Biforcation
  rw [foldl_append_pair]
  simp

/-- Membership in `argrelextrema` under an irreflexive decidable comparison:
exactly the interior indices comparing true against both true neighbours. -/
theorem mem_argrelextrema_strict (R : ℚ → ℚ → Prop) [DecidableRel R]
    (hR : ∀ a, ¬ R a a) (X : List ℚ) (i : ℕ) :
    i ∈ argrelextrema (fun a b => decide (R a b)) X ↔
      1 ≤ i ∧ i + 1 < X.length ∧
        R (X.getD i 0) (X.getD (i - 1) 0) ∧ R (X.getD i 0) (X.getD (i + 1) 0) := by
  unfold argrelextrema
  simp only [List.mem_filter, List.mem_range, Bool.and_eq_true, decide_eq_true_eq]
  constructor
  · rintro ⟨hi, h1, h2⟩
    have hi1 : 1 ≤ i := by
      rcases Nat.eq_zero_or_pos i with h0 | h1'
      · subst h0
        exact absurd h1 (by simpa using hR (X.getD 0 0))
      · exact h1'
    have hi2 : i + 1 < X.length := by
      by_contra hc
      push_neg at hc
      have hmin : min (i + 1) (X.length - 1) = i := by omega
      rw [hmin] at h2
      exact hR _ h2
    have hmin : min (i + 1) (X.length - 1) = i + 1 := by omega
    rw [hmin] at h2
    exact ⟨hi1, hi2, h1, h2⟩
  · rintro ⟨hi1, hi2, h1, h2⟩
    have hmin : min (i + 1) (X.length - 1) = i + 1 := by omega
    refine ⟨by omega, h1, ?_⟩
    rw [hmin]
    exact h2

/-! ### Claims -/

/-- C1: the Extremum Detector reports as strict local maxima exactly the
interior indices `i` with `1 ≤ i` and `i + 1 ≤ n - 1` whose value strictly
exceeds both neighbours, and symmetrically (with `<`) for strict local
minima; boundary indices and flat plateaus are never reported, and every
sequence of length `< 3` yields an empty result for both detectors. -/
theorem C1_extremum_detector (X : List ℚ) (i : ℕ) :
    (i ∈ argrelextrema gtb X ↔
      1 ≤ i ∧ i + 1 < X.length ∧
        X.getD (i - 1) 0 < X.getD i 0 ∧ X.getD (i + 1) 0 < X.getD i 0) ∧
    (i ∈ argrelextrema ltb X ↔
      1 ≤ i ∧ i + 1 < X.length ∧
        X.getD i 0 < X.getD (i - 1) 0 ∧ X.getD i 0 < X.getD (i + 1) 0) ∧
    (X.length < 3 → argrelextrema gtb X = [] ∧ argrelextrema ltb X = []) := by
  have hgt := mem_argrelextrema_strict (fun a b => b < a) (fun a => lt_irrefl a) X
  have hlt := mem_argrelextrema_strict (fun a b => a < b) (fun a => lt_irrefl a) X
  refine ⟨hgt i, hlt i, fun hlen => ?_⟩
  constructor
  · refine List.eq_nil_iff_forall_not_mem.mpr (fun j hj => ?_)
    have := (hgt j).mp hj
    omega
  · refine List.eq_nil_iff_forall_not_mem.mpr (fun j hj => ?_)
    have := (hlt j).mp hj
    omega

/-- C2 counterexample: on `[0,1,0,1,0,1,0]` the claim asserts maxima at
`{1,3,5}` and no minima, but the detector also reports strict local minima
(at indices 2 and 4, where the value 0 is below both neighbouring 1s). -/
theorem C2_counterexample :
    ¬ (argrelextrema gtb [0, 1, 0, 1, 0, 1, 0] = [1, 3, 5] ∧
       argrelextrema ltb [0, 1, 0, 1, 0, 1, 0] = []) := by
  decide

/-- C2 amended: on `[0,1,0,1,0,1,0]` maxima are exactly at `{1,3,5}` and
minima exactly at `{2,4}`; on `[0,1,2,3,2,1,0]` the only maximum is at
index 3 and there are no minima. -/
theorem C2_amended_extrema :
    argrelextrema gtb [0, 1, 0, 1, 0, 1, 0] = [1, 3, 5] ∧
    argrelextrema ltb [0, 1, 0, 1, 0, 1, 0] = [2, 4] ∧
    argrelextrema gtb [0, 1, 2, 3, 2, 1, 0] = [3] ∧
    argrelextrema ltb [0, 1, 2, 3, 2, 1, 0] = [] := by
  decide

/-- C3: the sweep builds exactly `par_tot` evenly spaced values including
both endpoints when `par_tot ≥ 2`, the single value `par_start` when
`par_tot = 1`; in particular `linspace 0 1 5 = [0, 1/4, 1/2, 3/4, 1]` and
`linspace 0 1 1 = [0]`. -/
theorem C3_linspace (a b : ℚ) (n : ℕ) (h : 2 ≤ n) :
    (linspace a b n).length = n ∧
    (∀ k, k < n → (linspace a b n).getD k 0 = a + (b - a) * (k : ℚ) / ((n : ℚ) - 1)) ∧
    (linspace a b n).getD 0 0 = a ∧
    (linspace a b n).getD (n - 1) 0 = b ∧
    linspace a b 1 = [a] ∧
    linspace (0 : ℚ) 1 5 = [0, 1/4, 1/2, 3/4, 1] ∧
    linspace (0 : ℚ) 1 1 = [0] := by
  have hlin : linspace a b n
      = (List.range n).map (fun (k : ℕ) => a + (b - a) * (k : ℚ) / ((n : ℚ) - 1)) := by
    unfold linspace
    rw [if_neg (by omega), if_neg (by omega)]
  have key : ∀ k, k < n →
      (linspace a b n).getD k 0 = a + (b - a) * (k : ℚ) / ((n : ℚ) - 1) := by
    intro k hk
    have hrange : (List.range n).getD k 0 = k := by
      rw [List.getD_eq_getElem?_getD, List.getElem?_range hk]
      rfl
    rw [hlin, getD_map_lt _ _ _ 0 _ (by simpa using hk), hrange]
  have hx : ((n : ℚ) - 1) ≠ 0 := by
    have h2 : (2 : ℚ) ≤ (n : ℚ) := by exact_mod_cast h
    linarith
  refine ⟨by simp [hlin], key, ?_, ?_, ?_, ?_, ?_⟩
  · rw [key 0 (by omega)]
    norm_num
  · rw [key (n - 1) (by omega), Nat.cast_sub (by omega : 1 ≤ n)]
    push_cast
    rw [mul_div_assoc, div_self hx, mul_one]
    ring
  · norm_num [linspace]
  · simp [linspace, List.range_succ]
    norm_num
  · norm_num [linspace]

/-- C3 witness at `a = 0`, `b = 1`, `n = 5`: the last sample is the upper
endpoint. -/
theorem C3_linspace_witness : (linspace (0 : ℚ) 1 5).getD 4 0 = 1 :=
  (C3_linspace 0 1 5 (by norm_num)).2.2.2.1

/-- C4: when the integrator honours the one-row-per-grid-point contract and
`abs(t_relax)` is at most the number of time-grid points, the sequence
handed to the Extremum Detector is exactly the trailing `abs(t_relax)`
samples of the first state component of the trajectory. -/
theorem C4_trailing_window (odeint : Integrator) (model : Model)
    (t0 t_stop dt : ℚ) (t_relax : ℤ) (i : ℚ)
    (hneg : t_relax < 0)
    (hrows : (odeint model X0 (arange t0 t_stop dt) i).length
      = (arange t0 t_stop dt).length)
    (hwin : t_relax.natAbs ≤ (arange t0 t_stop dt).length) :
    relaxedX odeint model (arange t0 t_stop dt) t_relax i
      = (trajectoryFirst odeint model (arange t0 t_stop dt) i).drop
          ((arange t0 t_stop dt).length - t_relax.natAbs) ∧
    (relaxedX odeint model (arange t0 t_stop dt) t_relax i).length
      = t_relax.natAbs := by
  have hXlen : (trajectoryFirst odeint model (arange t0 t_stop dt) i).length
      = (arange t0 t_stop dt).length := by
    simp [trajectoryFirst, hrows]
  have hslice : relaxedX odeint model (arange t0 t_stop dt) t_relax i
      = (trajectoryFirst odeint model (arange t0 t_stop dt) i).drop
          ((arange t0 t_stop dt).length - t_relax.natAbs) := by
    unfold relaxedX pySliceFrom
    rw [if_pos hneg]
    congr 1
    omega
  refine ⟨hslice, ?_⟩
  rw [hslice, List.length_drop]
  omega

/-- C4 witness: grid `[0, 1/2]`, constant-trajectory integrator,
`t_relax = -1`. -/
theorem C4_trailing_window_witness :
    relaxedX odeintGrid model0 (arange 0 1 (1/2)) (-1) 0
      = (trajectoryFirst odeintGrid model0 (arange 0 1 (1/2)) 0).drop
          ((arange 0 1 (1/2)).length - (-1 : ℤ).natAbs) :=
  (C4_trailing_window odeintGrid model0 0 1 (1/2) (-1) 0 (by norm_num)
    (by simp [odeintGrid])
    (by
      have h : (arange 0 1 (1/2)).length = 2 := by
        norm_num [arange, arangeLen]
        rfl
      rw [h]
      decide)).1

/-- C5: for each swept parameter value `p` (the `k`-th of the sweep), the
per-parameter extremum list is exactly the maxima values followed by the
minima values, and the parallel parameter list is `p` replicated once per
extremum. -/
theorem C5_per_parameter (odeint : Integrator) (model : Model)
    (par_start par_stop : ℚ) (par_tot : ℕ) (t0 t_stop dt : ℚ) (t_relax : ℤ)
    (k : ℕ) (hk : k < par_tot) :
    (Biforcation odeint model par_start par_stop par_tot t0 t_stop dt t_relax).2.getD k []
      = X_max odeint model (arange t0 t_stop dt) t_relax
          ((linspace par_start par_stop par_tot).getD k 0)
        ++ X_min odeint model (arange t0 t_stop dt) t_relax
          ((linspace par_start par_stop par_tot).getD k 0) ∧
    (Biforcation odeint model par_start par_stop par_tot t0 t_stop dt t_relax).1.getD k []
      = List.replicate
          (X_max odeint model (arange t0 t_stop dt) t_relax
              ((linspace par_start par_stop par_tot).getD k 0)
            ++ X_min odeint model (arange t0 t_stop dt) t_relax
              ((linspace par_start par_stop par_tot).getD k 0)).length
          ((linspace par_start par_stop par_tot).getD k 0) := by
  have hk' : k < (linspace par_start par_stop par_tot).length := by
    rw [linspace_length]
    exact hk
  rw [Biforcation_eq_map]
  constructor
  · rw [getD_map_lt _ _ _ 0 _ hk']
    rfl
  · rw [getD_map_lt _ _ _ 0 _ hk']
    unfold I_x
    rw [List.map_const']
    rfl

/-- C5 witness: the first swept parameter of a two-point sweep with a fixed
oscillating integrator. -/
theorem C5_per_parameter_witness :
    (Biforcation odeintOsc model0 0 1 2 0 1 1 (-5)).2.getD 0 []
      = X_max odeintOsc model0 (arange 0 1 1) (-5) ((linspace 0 1 2).getD 0 0)
        ++ X_min odeintOsc model0 (arange 0 1 1) (-5) ((linspace 0 1 2).getD 0 0) :=
  (C5_per_parameter odeintOsc model0 0 1 2 0 1 1 (-5) 0 (by norm_num)).1

theorem linspace_zero_one_two : linspace (0 : ℚ) 1 2 = [0, 1] := by
  simp [linspace, List.range_succ]
  norm_num

/-- C6 counterexample: the engine returns nested per-parameter lists, not
flat concatenated sequences. With a two-value sweep and an integrator whose
trajectory has three extrema per parameter value, the parameter sequence
has 2 entries (one inner list per parameter value) rather than 6 (one entry
per (parameter, extremum) pair, as the claim's flat-broadcast reading
requires). -/
theorem C6_counterexample :
    ¬ ((Biforcation odeintOsc model0 0 1 2 0 1 1 (-5)).1.length
        = ((Biforcation odeintOsc model0 0 1 2 0 1 1 (-5)).2.map List.length).sum) := by
  rw [Biforcation_eq_map, linspace_zero_one_two]
  decide

/-- C6 amended: the engine returns two parallel NESTED sequences — one
inner list of broadcast parameter values and one inner list of extremum
values per swept parameter value, in sweep order — and flattening both
yields the parallel flat dataset (equal flattened lengths). -/
theorem C6_amended_nested (odeint : Integrator) (model : Model)
    (par_start par_stop : ℚ) (par_tot : ℕ) (t0 t_stop dt : ℚ) (t_relax : ℤ) :
    (Biforcation odeint model par_start par_stop par_tot t0 t_stop dt t_relax).1
      = (linspace par_start par_stop par_tot).map
          (fun i => I_x odeint model (arange t0 t_stop dt) t_relax i) ∧
    (Biforcation odeint model par_start par_stop par_tot t0 t_stop dt t_relax).2
      = (linspace par_start par_stop par_tot).map
          (fun i => Bif_val odeint model (arange t0 t_stop dt) t_relax i) ∧
    (Biforcation odeint model par_start par_stop par_tot t0 t_stop dt t_relax).1.flatten.length
      = (Biforcation odeint model par_start par_stop par_tot t0 t_stop dt t_relax).2.flatten.length := by
  rw [Biforcation_eq_map]
  refine ⟨rfl, rfl, ?_⟩
  simp only [List.length_flatten, List.map_map]
  congr 1
  refine List.map_congr_left (fun i _ => ?_)
  simp [I_x]

/-- C7: the two returned sequences have equal (outer) length, every
per-parameter pair of inner lists has equal length, and the flattened
sequences have equal length — the dataset pairing invariant. -/
theorem C7_pairing (odeint : Integrator) (model : Model)
    (par_start par_stop : ℚ) (par_tot : ℕ) (t0 t_stop dt : ℚ) (t_relax : ℤ) :
    (Biforcation odeint model par_start par_stop par_tot t0 t_stop dt t_relax).1.length
      = (Biforcation odeint model par_start par_stop par_tot t0 t_stop dt t_relax).2.length ∧
    (∀ k : ℕ,
      ((Biforcation odeint model par_start par_stop par_tot t0 t_stop dt t_relax).1.getD k []).length
        = ((Biforcation odeint model par_start par_stop par_tot t0 t_stop dt t_relax).2.getD k []).length) ∧
    (Biforcation odeint model par_start par_stop par_tot t0 t_stop dt t_relax).1.flatten.length
      = (Biforcation odeint model par_start par_stop par_tot t0 t_stop dt t_relax).2.flatten.length := by
  rw [Biforcation_eq_map]
  refine ⟨by simp, fun k => ?_, ?_⟩
  · rcases Nat.lt_or_ge k (linspace par_start par_stop par_tot).length with hk | hk
    · rw [getD_map_lt _ _ _ 0 _ hk, getD_map_lt _ _ _ 0 _ hk]
      simp [I_x]
    · rw [getD_default_of_le _ _ _ (by simpa using hk),
        getD_default_of_le _ _ _ (by simpa using hk)]
  · simp only [List.length_flatten, List.map_map]
    congr 1
    refine List.map_congr_left (fun i _ => ?_)
    simp [I_x]

/-- C8 counterexample: with `par_tot = 0` (the only representable
`par_tot < 1`) and otherwise valid bounds (`dt = 1/2 > 0`,
`t_stop = 1 > t0 = 0`), the engine raises nothing and returns the empty
dataset — the source contains no `InvalidSweepSpecification` validation at
all. -/
theorem C8_counterexample :
    Biforcation odeintOsc model0 0 1 0 0 1 (1/2) (-1) = ([], []) := by
  rw [Biforcation_eq_map]
  simp [linspace]

/-- C8 amended: the source performs no sweep-specification validation and
defines no `InvalidSweepSpecification`: for `par_tot = 0` (the only
representable `par_tot < 1`) and any step `dt ≠ 0` the engine returns the
empty dataset `([], [])` normally; the only failure among the claim's
invalid inputs is numpy's `ZeroDivisionError` from `np.arange` when
`dt = 0`, raised while the grid is built — before the sweep loop, hence
for every `par_tot` — and it is not a sweep-specification error. -/
theorem C8_amended_no_validation (odeint : Integrator) (model : Model)
    (par_start par_stop t0 t_stop dt : ℚ) (t_relax : ℤ) :
    (dt ≠ 0 →
      BiforcationExc odeint model par_start par_stop 0 t0 t_stop dt t_relax
        = some ([], [])) ∧
    (dt = 0 → ∀ par_tot : ℕ,
      BiforcationExc odeint model par_start par_stop par_tot t0 t_stop dt t_relax
        = none) := by
  constructor
  · intro hdt
    unfold BiforcationExc
    rw [if_neg hdt, Biforcation_eq_map]
    simp [linspace]
  · intro hdt par_tot
    unfold BiforcationExc
    rw [if_pos hdt]

/-- C8 amended witness: `par_tot = 0` with `dt = 1/2` returns the empty
dataset normally, and `dt = 0` with `par_tot = 5` fails with no dataset. -/
theorem C8_amended_no_validation_witness :
    BiforcationExc odeintOsc model0 0 1 0 0 1 (1/2) (-1) = some ([], []) ∧
    BiforcationExc odeintOsc model0 0 1 5 0 1 0 (-1) = none :=
  ⟨(C8_amended_no_validation odeintOsc model0 0 1 0 1 (1/2) (-1)).1 (by norm_num),
   (C8_amended_no_validation odeintOsc model0 0 1 0 1 0 (-1)).2 rfl 5⟩

/-- C9: the sweep is deterministic (same inputs, same dataset) and its
iterations are independent: the contribution at position `k` is a function
of the `k`-th swept parameter value alone (fixed initial state and grid),
so two sweeps agreeing on a parameter value produce identical
contributions there — no state leaks across iterations. -/
theorem C9_deterministic_independent (odeint : Integrator) (model : Model)
    (t0 t_stop dt : ℚ) (t_relax : ℤ)
    (ps₁ pt₁ : ℚ) (n₁ : ℕ) (ps₂ pt₂ : ℚ) (n₂ : ℕ) (k₁ k₂ : ℕ)
    (hk₁ : k₁ < n₁) (hk₂ : k₂ < n₂)
    (hp : (linspace ps₁ pt₁ n₁).getD k₁ 0 = (linspace ps₂ pt₂ n₂).getD k₂ 0) :
    Biforcation odeint model ps₁ pt₁ n₁ t0 t_stop dt t_relax
      = Biforcation odeint model ps₁ pt₁ n₁ t0 t_stop dt t_relax ∧
    (Biforcation odeint model ps₁ pt₁ n₁ t0 t_stop dt t_relax).2.getD k₁ []
      = Bif_val odeint model (arange t0 t_stop dt) t_relax
          ((linspace ps₁ pt₁ n₁).getD k₁ 0) ∧
    (Biforcation odeint model ps₁ pt₁ n₁ t0 t_stop dt t_relax).2.getD k₁ []
      = (Biforcation odeint model ps₂ pt₂ n₂ t0 t_stop dt t_relax).2.getD k₂ [] := by
  have hk₁' : k₁ < (linspace ps₁ pt₁ n₁).length := by
    rw [linspace_length]; exact hk₁
  have hk₂' : k₂ < (linspace ps₂ pt₂ n₂).length := by
    rw [linspace_length]; exact hk₂
  have h₁ : (Biforcation odeint model ps₁ pt₁ n₁ t0 t_stop dt t_relax).2.getD k₁ []
      = Bif_val odeint model (arange t0 t_stop dt) t_relax
          ((linspace ps₁ pt₁ n₁).getD k₁ 0) := by
    rw [Biforcation_eq_map]
    exact getD_map_lt _ _ _ 0 _ hk₁'
  have h₂ : (Biforcation odeint model ps₂ pt₂ n₂ t0 t_stop dt t_relax).2.getD k₂ []
      = Bif_val odeint model (arange t0 t_stop dt) t_relax
          ((linspace ps₂ pt₂ n₂).getD k₂ 0) := by
    rw [Biforcation_eq_map]
    exact getD_map_lt _ _ _ 0 _ hk₂'
  exact ⟨rfl, h₁, by rw [h₁, h₂, hp]⟩

/-- C9 witness: two different sweeps sharing their first parameter value
(0) produce identical first contributions. -/
theorem C9_deterministic_independent_witness :
    (Biforcation odeintOsc model0 0 1 2 0 1 1 (-5)).2.getD 0 []
      = (Biforcation odeintOsc model0 0 2 3 0 1 1 (-5)).2.getD 0 [] :=
  (C9_deterministic_independent odeintOsc model0 0 1 1 (-5) 0 1 2 0 2 3 0 0
    (by norm_num) (by norm_num)
    (by simp [linspace, List.range_succ])).2.2

/-- C10: when `abs(t_relax)` exceeds the number of produced trajectory
samples, the Python negative slice clamps to the full trajectory: the
relaxation window is the entire first-component sequence and the extrema
are computed over it, transient included; no error is raised (the engine
is a total function). -/
theorem C10_window_clamp (odeint : Integrator) (model : Model)
    (t : List ℚ) (t_relax : ℤ) (i : ℚ)
    (hneg : t_relax < 0)
    (hover : (odeint model X0 t i).length < t_relax.natAbs) :
    relaxedX odeint model t t_relax i = trajectoryFirst odeint model t i ∧
    X_max odeint model t t_relax i
      = (argrelextrema gtb (trajectoryFirst odeint model t i)).map
          (fun j => (trajectoryFirst odeint model t i).getD j 0) ∧
    X_min odeint model t t_relax i
      = (argrelextrema ltb (trajectoryFirst odeint model t i)).map
          (fun j => (trajectoryFirst odeint model t i).getD j 0) := by
  have hlen : (trajectoryFirst odeint model t i).length
      = (odeint model X0 t i).length := by
    simp [trajectoryFirst]
  have h1 : relaxedX odeint model t t_relax i = trajectoryFirst odeint model t i := by
    unfold relaxedX pySliceFrom
    rw [if_pos hneg]
    have hz : (((trajectoryFirst odeint model t i).length : ℤ) + t_relax).toNat = 0 := by
      omega
    rw [hz, List.drop_zero]
  exact ⟨h1, by rw [X_max, h1], by rw [X_min, h1]⟩

/-- C10 witness: a five-sample trajectory with `t_relax = -6`. -/
theorem C10_window_clamp_witness :
    relaxedX odeintOsc model0 [0] (-6) 0 = trajectoryFirst odeintOsc model0 [0] 0 :=
  (C10_window_clamp odeintOsc model0 [0] (-6) 0 (by norm_num) (by decide)).1

end Astro
